import Mathlib

/-!
# Verification of the `datums` reactive-data library

Shallow embedding of `src/index.ts` (the current implementation, i.e. the
first document in that file; the later `RELATED_DOC` segments are older
variants kept only for reference).

The library has three layers, each embedded separately:

* the listener registry (`insertListener`, `maybeNotifyListeners`, the
  tombstone array with periodic compaction) — embedded as `RegSt` together
  with a small action language `LAct` for listener callbacks, so that a
  callback can record its invocation, unsubscribe slots, register further
  listeners, or throw, exactly the effects a JS callback can have on the
  registry;
* the source cell `Datum` (`val`, `set`, `onChange`, `_setLater`, `_flush`)
  — embedded as `DatumSt` over a registry;
* the derived node `Composed` — its update path (`#handleUpdate`,
  `#getAll`, interaction with `setMany`) is embedded as the system `CompSys`
  of n source cells with one composed node subscribed to all of them
  (upstream index = cell index, the composed node being each cell's
  listener), with the composed node's own notifications recorded in a log;
  its lifecycle (`stopListening`, destroyed checks of `val`/`onChange`) is
  embedded as `ComposedLC`.

Value types are abstract; `deepEq`/`shallowEq` stand for the external
`fast-equals` functions, with the properties a theorem needs (reflexivity,
symmetry) taken as explicit hypotheses. JS object identity is modelled
where needed by tagging values (two values may be `deepEq` yet distinct).
-/

namespace Datums

/-- Effects a listener callback may perform on the registry when invoked.
`record tag` models an observable side effect (logged with the values the
callback received); `clearSlot n` models calling an unsubscribe closure
captured for slot `n`; `unsubSelf` models calling the unsubscribe passed to
the callback for its own slot; `addListener acts` models registering a new
listener from inside the callback (`onChange` without `runImmediately`);
`throwErr m` models the callback throwing. -/
inductive LAct : Type where
  | record (tag : Nat)
  | clearSlot (n : Nat)
  | unsubSelf
  | addListener (acts : List LAct)
  | throwErr (msg : String)

/-- Registry state: the listener slot array (`none` = tombstone / hole)
plus a log of listener invocations `(tag, newVal, oldVal)`. -/
structure RegSt (V : Type) where
  slots : List (Option (List LAct))
  log : List (Nat × V × V)

/-- JS array element assignment `xs[n] = v`: in-bounds writes update the
entry, out-of-bounds writes extend the array with holes (read back as
`undefined`, i.e. `none`). -/
def setSlot {L : Type} (xs : List (Option L)) (n : Nat) (v : Option L) :
    List (Option L) :=
  if n < xs.length then xs.set n v
  else xs ++ List.replicate (n - xs.length) none ++ [v]

mutual
/-- Upper bound on the number of listeners an invocation of one action can
(transitively) add to the registry; used to size the fuel of the notify
loop. -/
def actGrowth : LAct → Nat
  | .addListener acts => 1 + actsGrowth acts
  | _ => 0

/-- Total growth bound of a callback body. -/
def actsGrowth : List LAct → Nat
  | [] => 0
  | a :: rest => actGrowth a + actsGrowth rest
end

/-- Total growth bound over every slot of the array. -/
def slotsGrowth : List (Option (List LAct)) → Nat
  | [] => 0
  | none :: rest => slotsGrowth rest
  | some acts :: rest => actsGrowth acts + slotsGrowth rest

mutual
/-- An action that can never throw (recursively, also inside listeners it
registers). -/
def actFree : LAct → Bool
  | .throwErr _ => false
  | .addListener acts => actsFree acts
  | _ => true

/-- A callback body that can never throw. -/
def actsFree : List LAct → Bool
  | [] => true
  | a :: rest => actFree a && actsFree rest
end

/-- Run a callback body. `selfIdx` is the slot the callback occupies (the
unsubscribe closure it received targets that index); `newV`/`oldV` are the
arguments the callback was invoked with. A `throwErr` propagates, aborting
the rest of the body (and, at the call site, the rest of the notification
pass), exactly as a JS exception would. -/
def runActs {V : Type} (selfIdx : Nat) (newV oldV : V) :
    List LAct → RegSt V → Except String (RegSt V)
  | [], st => .ok st
  | .record t :: rest, st =>
      runActs selfIdx newV oldV rest { st with log := st.log ++ [(t, newV, oldV)] }
  | .clearSlot n :: rest, st =>
      runActs selfIdx newV oldV rest { st with slots := setSlot st.slots n none }
  | .unsubSelf :: rest, st =>
      runActs selfIdx newV oldV rest { st with slots := setSlot st.slots selfIdx none }
  | .addListener acts :: rest, st =>
      runActs selfIdx newV oldV rest { st with slots := st.slots ++ [some acts] }
  | .throwErr m :: _, _ => .error m

/-- The iteration `for (let i = 0; i < listeners.length; i++)` of
`maybeNotifyListeners`.  The bound `i < listeners.length` is re-read on
every iteration, so the loop also visits slots appended during the pass.
It returns the final state together with `undefinedCount` (tombstones seen
during the pass).  The fuel only makes the recursion total in Lean; callers
pass `slots.length + slotsGrowth slots + 1`, which dominates the number of
iterations the JS loop performs, since every iteration either visits one of
the initial slots or one of the at most `slotsGrowth` appended ones. -/
def notifyLoop {V : Type} (newV oldV : V) :
    Nat → Nat → RegSt V → Nat → Except String (RegSt V × Nat)
  | 0, _, st, undefCount => .ok (st, undefCount)
  | fuel + 1, i, st, undefCount =>
      if i < st.slots.length then
        match st.slots.getD i none with
        | some acts =>
            match runActs i newV oldV acts st with
            | .error m => .error m
            | .ok st' => notifyLoop newV oldV fuel (i + 1) st' undefCount
        | none => notifyLoop newV oldV fuel (i + 1) st (undefCount + 1)
      else .ok (st, undefCount)

/-- In-place compaction: keep live listeners in order, truncate the array. -/
def compactSlots {L : Type} (xs : List (Option L)) : List (Option L) :=
  xs.filter (fun s => s.isSome)

/-- `maybeNotifyListeners(listeners, newVal, oldVal)` from `src/index.ts`:
return early when `deepEqual(newVal, oldVal)`; otherwise invoke every live
listener by increasing index; afterwards, when the array holds more than
1000 slots and more than 3/4 of the visited slots were tombstones, compact
the array in place. -/
def maybeNotifyListeners {V : Type} (deepEq : V → V → Bool)
    (st : RegSt V) (newV oldV : V) : Except String (RegSt V) :=
  if deepEq newV oldV then .ok st
  else
    match notifyLoop newV oldV (st.slots.length + slotsGrowth st.slots + 1) 0 st 0 with
    | .error m => .error m
    | .ok (st', undefCount) =>
        if 1000 < st'.slots.length ∧ st'.slots.length * 3 < undefCount * 4 then
          .ok { st' with slots := compactSlots st'.slots }
        else .ok st'

/-- `insertListener(listeners, cb, val, runImmediately)`: push the callback
at index `n = listeners.length` and hand out `n` as the unsubscribe handle
(the closure `() => (listeners[n] = undefined)`); when `runImmediately` is
set, invoke the callback with `(val, val, unsub)` before returning. -/
def insertListener {V : Type} (st : RegSt V) (cb : List LAct) (val : V)
    (runImmediately : Bool) : Except String (RegSt V × Nat) :=
  let n := st.slots.length
  let st1 : RegSt V := { st with slots := st.slots ++ [some cb] }
  if runImmediately then
    match runActs n val val cb st1 with
    | .error m => .error m
    | .ok st2 => .ok (st2, n)
  else .ok (st1, n)

/-- Calling an unsubscribe handle captured at registration time:
`listeners[n] = undefined`. -/
def applyUnsub {V : Type} (st : RegSt V) (n : Nat) : RegSt V :=
  { st with slots := setSlot st.slots n none }

/-- State of a source cell (`class Datum`): current value `#val`, the
pending marker `#lastVal` (`none` = the `UNSET` symbol), and its listener
registry. -/
structure DatumSt (V : Type) where
  val : V
  lastVal : Option V
  reg : RegSt V

/-- `datum(initial)`. -/
def datumNew {V : Type} (initial : V) : DatumSt V :=
  { val := initial, lastVal := none, reg := { slots := [], log := [] } }

/-- `Datum.set(newVal)`: overwrite `#val`, then notify with
`(newVal, oldVal)`.  The value is overwritten unconditionally; only the
notification is guarded by deep equality (inside `maybeNotifyListeners`). -/
def datumSet {V : Type} (deepEq : V → V → Bool) (d : DatumSt V) (newVal : V) :
    Except String (DatumSt V) :=
  match maybeNotifyListeners deepEq d.reg newVal d.val with
  | .error m => .error m
  | .ok r => .ok { d with val := newVal, reg := r }

/-- `Datum.onChange(cb, runImmediately)`. -/
def datumOnChange {V : Type} (d : DatumSt V) (cb : List LAct)
    (runImmediately : Bool) : Except String (DatumSt V × Nat) :=
  match insertListener d.reg cb d.val runImmediately with
  | .error m => .error m
  | .ok (r, n) => .ok ({ d with reg := r }, n)

/-- `Datum._setLater(v)`: save the pre-batch value into `#lastVal` only if
no value is staged yet, then overwrite `#val` — without any notification. -/
def datumSetLater {V : Type} (d : DatumSt V) (v : V) : DatumSt V :=
  { d with val := v, lastVal := some (d.lastVal.getD d.val) }

/-- `Datum._flush()`: no-op when nothing is staged; otherwise clear the
marker and notify with `(#val, preBatchVal)`. -/
def datumFlush {V : Type} (deepEq : V → V → Bool) (d : DatumSt V) :
    Except String (DatumSt V) :=
  match d.lastVal with
  | none => .ok d
  | some old =>
      match maybeNotifyListeners deepEq d.reg d.val old with
      | .error m => .error m
      | .ok r => .ok { d with lastVal := none, reg := r }

/-- Lifecycle state of a derived node (`class Composed`).  Fields that
`stopListening` sets to `undefined` are modelled as `Option`s (`none` =
`undefined`): `onDestroy` is the list of upstream unsubscribe closures
(modelled only by how many there are — their effect on upstream registries
is outside this model), `listeners` the node's own registry slots, `valU`
the cached output `#val`. -/
structure ComposedLC (V : Type) where
  destroyed : Bool
  onDestroy : Option (List Unit)
  listeners : Option (List (Option (List LAct)))
  valU : Option V

/-- `Composed.stopListening()`: iterate `#onDestroy` calling each upstream
unsubscribe, then clear `#listeners`, `#onDestroy`, `#val` (and the other
fields) to `undefined` and set `#destroyed`.  When `#onDestroy` is already
`undefined` (i.e. after a previous `stopListening`), the `for..of` over it
throws a `TypeError`. -/
def stopListening {V : Type} (c : ComposedLC V) : Except String (ComposedLC V) :=
  match c.onDestroy with
  | none => .error "TypeError: undefined is not iterable"
  | some _ =>
      .ok { destroyed := true, onDestroy := none, listeners := none, valU := none }

/-- `Composed.val` getter: throws on a destroyed node, otherwise returns the
cached `#val`. -/
def composedVal {V : Type} (c : ComposedLC V) : Except String (Option V) :=
  if c.destroyed then .error "cannot read val from destroyed cursor"
  else .ok c.valU

/-- `Composed.onChange(cb)`: throws on a destroyed node, otherwise registers
through `insertListener` (handle = index at registration time).  The
(unreachable for reachable states) case of a live node whose slot array is
`undefined` is modelled as the `TypeError` JS would raise. -/
def composedOnChange {V : Type} (c : ComposedLC V) (cb : List LAct) :
    Except String (ComposedLC V × Nat) :=
  if c.destroyed then .error "Cannot listen to destroyed Composed datum"
  else
    match c.listeners with
    | none => .error "TypeError: cannot read properties of undefined"
    | some slots =>
        .ok ({ c with listeners := some (slots ++ [some cb]) }, slots.length)

/-- One source cell inside the batch model: its `#val` and the staging
marker `#lastVal` (`none` = `UNSET`). -/
structure Cell (V : Type) where
  val : V
  lastVal : Option V

/-- System of `n` source cells with one derived node subscribed to all of
them (upstream index = cell index, the derived node's `#handleUpdate` being
each cell's only listener).  `compVal` is the derived node's `#val`,
`lastIn` its cached upstream snapshot `#lastIn`, `computeCount` counts the
invocations of the user compute function, and `outLog` records the
`(newOut, oldOut)` notifications the derived node emits to its own
listeners (appended exactly when `maybeNotifyListeners` on the derived
node's registry does not return early). -/
structure CompSys (V : Type) where
  cells : List (Cell V)
  compVal : V
  lastIn : List V
  computeCount : Nat
  outLog : List (V × V)

/-- `Composed.#getAll()`: read every upstream's current value. -/
def getAll {V : Type} (sys : CompSys V) : List V :=
  sys.cells.map Cell.val

/-- `Composed.#handleUpdate(idx, v)`: short-circuit when `v` is
shallow-equal to the cached snapshot entry; otherwise re-read the full
snapshot, recompute with `(snapshot, previousOut)`, store the new output,
and notify (append to `outLog`) unless the new output is deep-equal to the
previous one.  The source's local constants `oldVal` (the previous output)
and `collected` (the fresh snapshot) are inlined here; the `getD` default
is never reached for in-range indices. -/
def handleUpdate {V : Type} (deepEq shallowEq : V → V → Bool)
    (compute : List V → Option V → V) (sys : CompSys V) (idx : Nat) (v : V) :
    CompSys V :=
  if shallowEq v (sys.lastIn.getD idx v) then sys
  else
    if deepEq (compute (getAll sys) (some sys.compVal)) sys.compVal then
      { sys with lastIn := getAll sys,
                 compVal := compute (getAll sys) (some sys.compVal),
                 computeCount := sys.computeCount + 1 }
    else
      { sys with lastIn := getAll sys,
                 compVal := compute (getAll sys) (some sys.compVal),
                 computeCount := sys.computeCount + 1,
                 outLog := sys.outLog
                   ++ [(compute (getAll sys) (some sys.compVal), sys.compVal)] }

/-- `Datum._setLater(v)` for cell `i` of the system (out-of-range indices
are a no-op; they do not occur in a real batch). -/
def setLaterCell {V : Type} (sys : CompSys V) (i : Nat) (v : V) : CompSys V :=
  match sys.cells.get? i with
  | none => sys
  | some c =>
      { sys with
        cells := sys.cells.set i { val := v, lastVal := some (c.lastVal.getD c.val) } }

/-- `Datum._flush()` for cell `i`: no-op when nothing is staged; otherwise
clear the marker and, unless the cell's value is deep-equal to its
pre-batch value, notify the cell's one listener — the derived node's
`#handleUpdate i`. -/
def flushCell {V : Type} (deepEq shallowEq : V → V → Bool)
    (compute : List V → Option V → V) (sys : CompSys V) (i : Nat) : CompSys V :=
  match sys.cells.get? i with
  | none => sys
  | some c =>
      match c.lastVal with
      | none => sys
      | some old =>
          if deepEq c.val old then
            { sys with cells := sys.cells.set i { c with lastVal := none } }
          else
            handleUpdate deepEq shallowEq compute
              { sys with cells := sys.cells.set i { c with lastVal := none } }
              i c.val

/-- `setMany(...pairs)`: stage every pair in order, then flush every pair's
cell in the same order (a cell staged several times flushes on its first
occurrence and is a no-op afterwards). -/
def csSetMany {V : Type} (deepEq shallowEq : V → V → Bool)
    (compute : List V → Option V → V) (sys : CompSys V)
    (pairs : List (Nat × V)) : CompSys V :=
  let s1 := pairs.foldl (fun s p => setLaterCell s p.1 p.2) sys
  pairs.foldl (fun s p => flushCell deepEq shallowEq compute s p.1) s1

/-! ## Helper lemmas -/

theorem set_of_get?_eq {α : Type} (xs : List α) (n : Nat) (a : α)
    (h : xs.get? n = some a) : xs.set n a = xs := by
  induction xs generalizing n with
  | nil => simp at h
  | cons x rest ih =>
    cases n with
    | zero =>
      rw [List.get?_cons_zero] at h
      cases h
      rfl
    | succ m =>
      rw [List.get?_cons_succ] at h
      rw [List.set_cons_succ, ih m h]

theorem set_of_getElem?_eq {α : Type} (xs : List α) (n : Nat) (a : α)
    (h : xs[n]? = some a) : xs.set n a = xs := by
  apply set_of_get?_eq
  rw [List.get?_eq_getElem?]
  exact h

theorem natBeq_symm (a b : Nat) : (a == b) = (b == a) := by
  by_cases h : a = b
  · subst h; rfl
  · have h1 : (a == b) = false := by simpa using h
    have h2 : (b == a) = false := by simpa using (Ne.symm h)
    rw [h1, h2]

theorem setSlot_getD_self {L : Type} (xs : List (Option L)) (n : Nat) :
    (setSlot xs n none).getD n none = none := by
  unfold setSlot
  split
  · next h =>
    simp [List.getD_eq_getElem?_getD, List.getElem?_set_self, h]
  · next h =>
    have hlen : xs.length ≤ n := Nat.le_of_not_lt h
    rw [List.getD_eq_getElem?_getD, List.append_assoc,
      List.getElem?_append_right hlen,
      List.getElem?_append_right (by simp)]
    simp

theorem setSlot_getD_other {L : Type} (xs : List (Option L)) (n m : Nat)
    (hm : m ≠ n) :
    (setSlot xs n none).getD m none = xs.getD m none := by
  unfold setSlot
  split
  · next h =>
    simp [List.getD_eq_getElem?_getD, List.getElem?_set_ne (Ne.symm hm)]
  · next h =>
    have hlen : xs.length ≤ n := Nat.le_of_not_lt h
    by_cases hmlen : m < xs.length
    · rw [List.getD_eq_getElem?_getD, List.append_assoc,
        List.getElem?_append_left hmlen, List.getD_eq_getElem?_getD]
    · have hmlen' : xs.length ≤ m := Nat.le_of_not_lt hmlen
      rw [List.getD_eq_getElem?_getD, List.getD_eq_getElem?_getD,
        List.append_assoc, List.getElem?_append_right hmlen',
        List.getElem?_eq_none hmlen']
      by_cases hcase : m - xs.length < n - xs.length
      · rw [List.getElem?_append_left (by simpa using hcase)]
        simp [List.getElem?_replicate, hcase]
      · have hmn : n < m := by omega
        rw [List.getElem?_append_right (by simp; omega),
          List.getElem?_eq_none (by simp; omega)]

theorem applyUnsub_idem {V : Type} (st : RegSt V) (n : Nat) :
    applyUnsub (applyUnsub st n) n = applyUnsub st n := by
  unfold applyUnsub
  congr 1
  unfold setSlot
  split
  · next h =>
    have h2 : n < (st.slots.set n none).length := by simpa using h
    rw [if_pos h2, List.set_set]
  · next h =>
    have hlen : st.slots.length ≤ n := Nat.le_of_not_lt h
    have h2 : n <
        (st.slots ++ List.replicate (n - st.slots.length) none ++ [none]).length := by
      simp
      omega
    rw [if_pos h2]
    apply set_of_getElem?_eq
    rw [List.append_assoc, List.getElem?_append_right hlen,
      List.getElem?_append_right (by simp)]
    simp

/-! ## Claims about the source cell (`Datum`) -/

/-- Claim C8 (confirmed): during a `setMany` batch, once a cell has been
staged via `_setLater` but before its `_flush`, the `val` getter already
returns the staged value, and only the notification is deferred: the
listener registry (slots and invocation log) is untouched by staging. -/
theorem setLater_updates_val_and_defers_notification {V : Type}
    (d : DatumSt V) (v : V) :
    (datumSetLater d v).val = v ∧ (datumSetLater d v).reg = d.reg :=
  ⟨rfl, rfl⟩

/-- Claim C5, amended (corrected): writing a value deep-equal to the current
one notifies no listener and leaves the registry untouched, but the stored
value is unconditionally overwritten with the new (deep-equal) value — it
does not stay the value held before the call; reads afterwards return the
new value, which is deep-equal to the prior one. -/
theorem set_deepEqual_no_notification {V : Type} (deepEq : V → V → Bool)
    (hsym : ∀ a b, deepEq a b = deepEq b a)
    (d : DatumSt V) (v : V) (h : deepEq d.val v = true) :
    datumSet deepEq d v = .ok { d with val := v } := by
  have hv : deepEq v d.val = true := by rw [hsym]; exact h
  simp [datumSet, maybeNotifyListeners, hv]

/-- Witness for `set_deepEqual_no_notification` at a concrete input. -/
theorem set_deepEqual_no_notification_witness :
    (∀ a b : Nat, (a == b) = (b == a)) ∧
      ((datumNew 5).val == 5) = true ∧
      datumSet (fun a b : Nat => a == b) (datumNew 5) 5
        = .ok { datumNew 5 with val := 5 } :=
  ⟨natBeq_symm, rfl,
    set_deepEqual_no_notification _ natBeq_symm (datumNew 5) 5 rfl⟩

/-- Counterexample to claim C5 as stated: the pair's first component models
JS object identity, the second its content; `eqSnd` is deep equality
(content only).  Writing the deep-equal but distinct value `(1, 5)` over
`(0, 5)` succeeds with no notification, yet the stored value afterwards is
`(1, 5)`, not the pre-call value `(0, 5)` — the claim's "the stored value
stays the value held before the call" is false. -/
theorem set_deepEqual_overwrites_value :
    ((fun a b : Nat × Nat => a.2 == b.2) (0, 5) (1, 5) = true) ∧
      (datumSet (fun a b : Nat × Nat => a.2 == b.2)
          (datumNew (0, 5)) (1, 5)).toOption.map DatumSt.val = some (1, 5) ∧
      ¬ ((((1 : Nat), (5 : Nat))) = ((0 : Nat), (5 : Nat))) := by
  refine ⟨rfl, rfl, by decide⟩

/-- Shape of a nonempty run of `_setLater` calls when a value is already
staged: the first pre-batch value is kept, the last staged value wins. -/
theorem foldl_setLater_staged {V : Type} (vs : List V) (d : DatumSt V) (w : V)
    (h : d.lastVal = some w) :
    vs.foldl datumSetLater d
      = { d with val := vs.getLastD d.val, lastVal := some w } := by
  induction vs generalizing d with
  | nil =>
    cases d with
    | mk val lastVal reg => simp_all
  | cons v rest ih =>
    have h1 : datumSetLater d v
        = { d with val := v, lastVal := some w } := by
      simp [datumSetLater, h]
    rw [List.foldl_cons, h1, ih _ rfl, List.getLastD_cons]

theorem flush_of_staged_eq_set {V : Type} (deepEq : V → V → Bool)
    (reg : RegSt V) (x w : V) :
    datumFlush deepEq { val := x, lastVal := some w, reg := reg }
      = datumSet deepEq { val := w, lastVal := none, reg := reg } x := by
  unfold datumFlush datumSet
  cases hm : maybeNotifyListeners deepEq reg x w with
  | error m => simp [hm]
  | ok r => simp [hm]

/-- Claim C6 (confirmed): staging `v1 .. vn` on a cell that is outside a
batch and then committing once is, as a state transformer (value, staging
marker, registry including every listener invocation, and any exception),
identical to a single `set` of `vn` — the notification comparison is
against the value at batch start, not any intermediate stage. -/
theorem staged_writes_then_flush_eq_single_set {V : Type}
    (deepEq : V → V → Bool) (d : DatumSt V) (vs : List V)
    (h0 : d.lastVal = none) (hne : vs ≠ []) :
    datumFlush deepEq (vs.foldl datumSetLater d)
      = datumSet deepEq d (vs.getLast hne) := by
  cases vs with
  | nil => exact absurd rfl hne
  | cons v rest =>
    have h1 : datumSetLater d v = { d with val := v, lastVal := some d.val } := by
      simp [datumSetLater, h0]
    have hd : ({ val := d.val, lastVal := none, reg := d.reg } : DatumSt V) = d := by
      cases d; simp_all
    rw [List.foldl_cons, h1,
      foldl_setLater_staged rest { d with val := v, lastVal := some d.val } d.val rfl,
      List.getLast_eq_getLastD, flush_of_staged_eq_set, hd]

/-- Witness for `staged_writes_then_flush_eq_single_set`: staging 1 then 2
on a fresh cell holding 0 and flushing equals a single `set 2`. -/
theorem staged_writes_then_flush_witness :
    (datumNew 0).lastVal = none ∧ ([1, 2] : List Nat) ≠ [] ∧
      datumFlush (fun a b : Nat => a == b)
          (([1, 2] : List Nat).foldl datumSetLater (datumNew 0))
        = datumSet (fun a b : Nat => a == b) (datumNew 0)
            (([1, 2] : List Nat).getLast (by decide)) :=
  ⟨rfl, by decide,
    staged_writes_then_flush_eq_single_set _ (datumNew 0) [1, 2] rfl (by decide)⟩

theorem getD_replicate_append_left {L : Type} (k : Nat) (rest : List (Option L))
    (j : Nat) (h : j < k) :
    (List.replicate k (none : Option L) ++ rest).getD j none = none := by
  rw [List.getD_eq_getElem?_getD,
    List.getElem?_append_left (by simpa using h), List.getElem?_replicate]
  simp [h]

theorem getD_replicate_append_at {L : Type} (k : Nat) (x : Option L) :
    (List.replicate k (none : Option L) ++ [x]).getD k none = x := by
  rw [List.getD_eq_getElem?_getD, List.getElem?_append_right (by simp)]
  simp

theorem getD_cons_replicate_none {L : Type} (a : Option L) (m j : Nat)
    (h1 : 1 ≤ j) (h2 : j ≤ m + 1) :
    ((a :: (List.replicate m (none : Option L) ++ [none])).getD j none) = none := by
  cases j with
  | zero => omega
  | succ i =>
    rw [List.getD_eq_getElem?_getD, List.getElem?_cons_succ]
    by_cases hc : i < m
    · rw [List.getElem?_append_left (by simpa using hc), List.getElem?_replicate]
      simp [hc]
    · have hi : i = m := by omega
      subst hi
      rw [List.getElem?_append_right (by simp)]
      simp

theorem slotsGrowth_append (xs ys : List (Option (List LAct))) :
    slotsGrowth (xs ++ ys) = slotsGrowth xs + slotsGrowth ys := by
  induction xs with
  | nil => simp [slotsGrowth]
  | cons x rest ih =>
    cases x with
    | none => simp [slotsGrowth, ih]
    | some acts => simp [slotsGrowth, ih]; omega

theorem slotsGrowth_replicate_none (k : Nat) :
    slotsGrowth (List.replicate k none) = 0 := by
  induction k with
  | zero => rfl
  | succ n ih => simpa [List.replicate, slotsGrowth] using ih

theorem filter_isSome_replicate_none {L : Type} (k : Nat) :
    (List.replicate k (none : Option L)).filter (fun s => s.isSome) = [] := by
  induction k with
  | zero => rfl
  | succ n ih => simp [List.replicate, List.filter, ih]

theorem compactSlots_replicate_append {L : Type} (k : Nat)
    (rest : List (Option L)) :
    compactSlots (List.replicate k none ++ rest) = compactSlots rest := by
  unfold compactSlots
  rw [List.filter_append, filter_isSome_replicate_none, List.nil_append]

theorem notifyLoop_skip {V : Type} (v w : V) (fuel i uc : Nat) (st : RegSt V)
    (hi : i < st.slots.length) (h : st.slots.getD i none = none) :
    notifyLoop v w (fuel + 1) i st uc = notifyLoop v w fuel (i + 1) st (uc + 1) := by
  rw [notifyLoop, if_pos hi, h]

theorem notifyLoop_live {V : Type} (v w : V) (fuel i uc : Nat) (st st' : RegSt V)
    (acts : List LAct) (hi : i < st.slots.length)
    (h : st.slots.getD i none = some acts)
    (hrun : runActs i v w acts st = .ok st') :
    notifyLoop v w (fuel + 1) i st uc = notifyLoop v w fuel (i + 1) st' uc := by
  rw [notifyLoop, if_pos hi, h]
  simp only [hrun]

theorem notifyLoop_stop {V : Type} (v w : V) (fuel i uc : Nat) (st : RegSt V)
    (hi : ¬ i < st.slots.length) :
    notifyLoop v w fuel i st uc = .ok (st, uc) := by
  cases fuel with
  | zero => rfl
  | succ n =>
    rw [notifyLoop]
    simp [hi]

theorem notifyLoop_skip_run {V : Type} (v w : V) :
    ∀ (k fuel i uc : Nat) (st : RegSt V),
      (∀ j, i ≤ j → j < i + k → st.slots.getD j none = none) →
      i + k ≤ st.slots.length →
      notifyLoop v w (fuel + k) i st uc = notifyLoop v w fuel (i + k) st (uc + k) := by
  intro k
  induction k with
  | zero => intro fuel i uc st _ _; rfl
  | succ n ih =>
    intro fuel i uc st hnone hlen
    have hsplit : fuel + (n + 1) = (fuel + n) + 1 := by omega
    rw [hsplit,
      notifyLoop_skip v w (fuel + n) i uc st (by omega)
        (hnone i (Nat.le_refl i) (by omega)),
      ih fuel (i + 1) (uc + 1) st
        (fun j hj1 hj2 => hnone j (by omega) (by omega)) (by omega)]
    have h1 : i + 1 + n = i + (n + 1) := by omega
    have h2 : uc + 1 + n = uc + (n + 1) := by omega
    rw [h1, h2]

theorem maybeNotify_eq_of_false {V : Type} (deepEq : V → V → Bool)
    (st : RegSt V) (v w : V) (h : deepEq v w = false) :
    maybeNotifyListeners deepEq st v w
      = match notifyLoop v w (st.slots.length + slotsGrowth st.slots + 1) 0 st 0 with
        | .error m => .error m
        | .ok (st', undefCount) =>
            if 1000 < st'.slots.length ∧ st'.slots.length * 3 < undefCount * 4 then
              .ok { st' with slots := compactSlots st'.slots }
            else .ok st' := by
  unfold maybeNotifyListeners
  rw [h]
  rfl

/-! ## Claims about the listener registry -/

/-- Claim C2, amended (corrected): a listener registered from inside a
callback during a notification pass IS invoked during that same pass when
the loop reaches its slot: the pass is bounded by the listener count
re-read on every iteration (`i < listeners.length`), not by the count at
pass start, and `insertListener` appends at the end.  Here the single
initial listener records `s` and registers a recorder of `t`; the pass
then also invokes the freshly registered listener with the same
`(newVal, oldVal)` arguments. -/
theorem listener_added_during_pass_is_invoked {V : Type}
    (deepEq : V → V → Bool) (v w : V) (s t : Nat) (h : deepEq v w = false) :
    maybeNotifyListeners deepEq
        { slots := [some [LAct.record s, LAct.addListener [LAct.record t]]],
          log := [] } v w
      = .ok { slots := [some [LAct.record s, LAct.addListener [LAct.record t]],
                        some [LAct.record t]],
              log := [(s, v, w), (t, v, w)] } := by
  unfold maybeNotifyListeners
  rw [h]
  rfl

/-- Witness for `listener_added_during_pass_is_invoked` at concrete
values. -/
theorem listener_added_during_pass_is_invoked_witness :
    ((fun a b : Nat => a == b) 1 0 = false) ∧
      maybeNotifyListeners (fun a b : Nat => a == b)
          { slots := [some [LAct.record 4, LAct.addListener [LAct.record 7]]],
            log := [] } 1 0
        = .ok { slots := [some [LAct.record 4, LAct.addListener [LAct.record 7]],
                          some [LAct.record 7]],
                log := [(4, 1, 0), (7, 1, 0)] } :=
  ⟨rfl, listener_added_during_pass_is_invoked (fun a b : Nat => a == b) 1 0 4 7 rfl⟩

/-- Counterexample to claim C2 as stated: during the notification pass with
`(newVal, oldVal) = (1, 0)`, the only initial listener registers a new
listener tagged `7`; the pass invokes the new listener too — its tag
appears in the invocation log of the very same `maybeNotifyListeners`
call, with that pass's values.  The claim said such a listener is never
invoked during the same pass. -/
theorem listener_added_during_pass_not_deferred :
    (maybeNotifyListeners (fun a b : Nat => a == b)
        { slots := [some [LAct.addListener [LAct.record 7], LAct.record 1]],
          log := [] } 1 0).toOption.map RegSt.log
      = some [(1, 1, 0), (7, 1, 0)] := by
  rfl

/-- Claim C3, amended (corrected): as long as no compaction pass has
intervened, an unsubscribe handle (the closure writing `undefined` at its
captured index) is a safe no-op on an already-discarded slot and still
removes exactly its own listener: calling it clears its own index, leaves
the read view of every other index unchanged, never touches the invocation
log, and calling it twice equals calling it once.  (Totality — "does not
throw" — is inherent: `applyUnsub` is a total function.)  After a
compaction pass this breaks down, see the counterexample. -/
theorem unsubscribe_handle_semantics {V : Type} (st : RegSt V) (n m : Nat)
    (hm : m ≠ n) :
    (applyUnsub st n).slots.getD n none = none ∧
      (applyUnsub st n).slots.getD m none = st.slots.getD m none ∧
      applyUnsub (applyUnsub st n) n = applyUnsub st n ∧
      (applyUnsub st n).log = st.log :=
  ⟨setSlot_getD_self st.slots n, setSlot_getD_other st.slots n m hm,
    applyUnsub_idem st n, rfl⟩

/-- Concrete two-listener registry for the C3 witness. -/
def twoRecorderReg : RegSt Nat :=
  { slots := [some [LAct.record 3], some [LAct.record 4]], log := [] }

/-- Witness for `unsubscribe_handle_semantics` on a concrete registry. -/
theorem unsubscribe_handle_semantics_witness :
    (0 : Nat) ≠ 1 ∧
      ((applyUnsub twoRecorderReg 1).slots.getD 1 none = none ∧
        (applyUnsub twoRecorderReg 1).slots.getD 0 none
          = twoRecorderReg.slots.getD 0 none ∧
        applyUnsub (applyUnsub twoRecorderReg 1) 1 = applyUnsub twoRecorderReg 1 ∧
        (applyUnsub twoRecorderReg 1).log = twoRecorderReg.log) :=
  ⟨by decide, unsubscribe_handle_semantics twoRecorderReg 1 0 (by decide)⟩

/-- Registry driving the C3 counterexample: 1000 tombstones followed by one
live recorder tagged `99` at index 1000 (1001 slots, more than 3/4 of them
tombstones, so a notification pass triggers compaction). -/
def preCompactionSlots : List (Option (List LAct)) :=
  List.replicate 1000 none ++ [some [LAct.record 99]]

set_option maxRecDepth 100000

/-- Slot array after the stale unsubscribe call: the JS write at the
out-of-range index 1000 extended the compacted one-slot array with holes. -/
def staleSlots : List (Option (List LAct)) :=
  [some [LAct.record 99]] ++ List.replicate 999 none ++ [none]

theorem preCompaction_length : preCompactionSlots.length = 1001 := by
  simp [preCompactionSlots]

theorem preCompaction_growth : slotsGrowth preCompactionSlots = 0 := by
  simp [preCompactionSlots, slotsGrowth_append, slotsGrowth_replicate_none,
    slotsGrowth, actsGrowth, actGrowth]

theorem staleSlots_length : staleSlots.length = 1001 := by
  simp [staleSlots]

theorem staleSlots_growth : slotsGrowth staleSlots = 0 := by
  simp [staleSlots, slotsGrowth_append, slotsGrowth_replicate_none,
    slotsGrowth, actsGrowth, actGrowth]

theorem compact_preCompaction :
    compactSlots preCompactionSlots = [some [LAct.record 99]] := by
  rw [preCompactionSlots, compactSlots_replicate_append]
  rfl

theorem compact_staleSlots :
    compactSlots staleSlots = [some [LAct.record 99]] := by
  rw [staleSlots, compactSlots]
  rw [List.filter_append, List.filter_append, filter_isSome_replicate_none]
  rfl

theorem firstNotify_eval :
    maybeNotifyListeners (fun a b : Nat => a == b)
        { slots := preCompactionSlots, log := [] } 1 0
      = .ok { slots := [some [LAct.record 99]], log := [(99, 1, 0)] } := by
  have hcore : notifyLoop (1 : Nat) 0 1002 0 ⟨preCompactionSlots, []⟩ 0
      = .ok (⟨preCompactionSlots, [(99, 1, 0)]⟩, 1000) := by
    rw [show (1002 : Nat) = 2 + 1000 from by norm_num,
      notifyLoop_skip_run 1 0 1000 2 0 0 ⟨preCompactionSlots, []⟩
        (fun j _ hj =>
          getD_replicate_append_left 1000 [some [LAct.record 99]] j (by omega))
        (by show 0 + 1000 ≤ preCompactionSlots.length
            rw [preCompaction_length]; omega)]
    simp only [Nat.zero_add]
    rw [show (2 : Nat) = 1 + 1 from rfl,
      notifyLoop_live 1 0 1 1000 1000 ⟨preCompactionSlots, []⟩
        ⟨preCompactionSlots, [(99, 1, 0)]⟩ [LAct.record 99]
        (by show (1000 : Nat) < preCompactionSlots.length
            rw [preCompaction_length]; omega)
        (getD_replicate_append_at 1000 (some [LAct.record 99]))
        rfl,
      notifyLoop_stop 1 0 1 (1000 + 1) 1000 ⟨preCompactionSlots, [(99, 1, 0)]⟩
        (by show ¬ (1000 + 1 < preCompactionSlots.length)
            rw [preCompaction_length]; omega)]
  rw [maybeNotify_eq_of_false (fun a b : Nat => a == b) _ 1 0 rfl]
  have hfuel : ({ slots := preCompactionSlots, log := [] } : RegSt Nat).slots.length
      + slotsGrowth ({ slots := preCompactionSlots, log := [] } : RegSt Nat).slots
      + 1 = 1002 := by
    show preCompactionSlots.length + slotsGrowth preCompactionSlots + 1 = 1002
    rw [preCompaction_length, preCompaction_growth]
  rw [hfuel, hcore]
  simp [preCompaction_length, compact_preCompaction]

theorem secondNotify_eval :
    maybeNotifyListeners (fun a b : Nat => a == b)
        { slots := staleSlots, log := [(99, 1, 0)] } 2 1
      = .ok { slots := [some [LAct.record 99]], log := [(99, 1, 0), (99, 2, 1)] } := by
  have hcore : notifyLoop (2 : Nat) 1 1002 0 ⟨staleSlots, [(99, 1, 0)]⟩ 0
      = .ok (⟨staleSlots, [(99, 1, 0), (99, 2, 1)]⟩, 1000) := by
    rw [show (1002 : Nat) = 1001 + 1 from by norm_num,
      notifyLoop_live 2 1 1001 0 0 ⟨staleSlots, [(99, 1, 0)]⟩
        ⟨staleSlots, [(99, 1, 0), (99, 2, 1)]⟩ [LAct.record 99]
        (by show (0 : Nat) < staleSlots.length
            rw [staleSlots_length]; omega)
        rfl rfl,
      show (1001 : Nat) = 1 + 1000 from by norm_num,
      notifyLoop_skip_run 2 1 1000 1 (0 + 1) 0 ⟨staleSlots, [(99, 1, 0), (99, 2, 1)]⟩
        (fun j hj1 hj2 =>
          getD_cons_replicate_none (some [LAct.record 99]) 999 j (by omega) (by omega))
        (by show 0 + 1 + 1000 ≤ staleSlots.length
            rw [staleSlots_length]),
      notifyLoop_stop 2 1 1 (0 + 1 + 1000) (0 + 1000)
        ⟨staleSlots, [(99, 1, 0), (99, 2, 1)]⟩
        (by show ¬ (0 + 1 + 1000 < staleSlots.length)
            rw [staleSlots_length]
            omega)]
  rw [maybeNotify_eq_of_false (fun a b : Nat => a == b) _ 2 1 rfl]
  have hfuel : ({ slots := staleSlots, log := [(99, 1, 0)] } : RegSt Nat).slots.length
      + slotsGrowth ({ slots := staleSlots, log := [(99, 1, 0)] } : RegSt Nat).slots
      + 1 = 1002 := by
    show staleSlots.length + slotsGrowth staleSlots + 1 = 1002
    rw [staleSlots_length, staleSlots_growth]
  rw [hfuel, hcore]
  simp [staleSlots_length, compact_staleSlots]

/-- Counterexample to claim C3 as stated, as an execution trace.  First
conjunct: a notification pass over the 1001-slot registry compacts it —
the listener tagged `99`, registered last (handle index 1000), moves to
index 0, and the pass logged its invocation once.  Second conjunct:
calling that listener's unsubscribe handle afterwards writes `undefined`
at the stale index 1000, merely extending the one-slot array with holes.
Third and fourth conjuncts: the listener is still registered at index 0
after its handle was called, and a second notification pass invokes it
again ­— so a handle for a listener that was live before compaction fails
to remove that listener after compaction, contradicting the claim. -/
theorem stale_handle_fails_after_compaction :
    maybeNotifyListeners (fun a b : Nat => a == b)
        { slots := preCompactionSlots, log := [] } 1 0
      = .ok { slots := [some [LAct.record 99]], log := [(99, 1, 0)] } ∧
      applyUnsub { slots := [some [LAct.record 99]], log := [(99, 1, 0)] } 1000
        = { slots := staleSlots, log := [(99, 1, 0)] } ∧
      staleSlots.getD 0 none = some [LAct.record 99] ∧
      maybeNotifyListeners (fun a b : Nat => a == b)
          { slots := staleSlots, log := [(99, 1, 0)] } 2 1
        = .ok { slots := [some [LAct.record 99]],
                log := [(99, 1, 0), (99, 2, 1)] } :=
  ⟨firstNotify_eval, rfl, rfl, secondNotify_eval⟩

/-! ## Claim C10: throw-freedom of the source cell's operations -/

/-- A listener slot whose callback (if any) can never throw. -/
def slotFree : Option (List LAct) → Bool
  | some acts => actsFree acts
  | none => true

theorem all_slotFree_setSlot (xs : List (Option (List LAct))) (n : Nat)
    (h : xs.all slotFree = true) : (setSlot xs n none).all slotFree = true := by
  unfold setSlot
  split
  · rw [List.all_eq_true] at h ⊢
    intro x hx
    rcases List.mem_or_eq_of_mem_set hx with h1 | h1
    · exact h x h1
    · subst h1; rfl
  · rw [List.all_eq_true] at h ⊢
    intro x hx
    rcases List.mem_append.mp hx with h1 | h1
    · rcases List.mem_append.mp h1 with h2 | h2
      · exact h x h2
      · rw [List.eq_of_mem_replicate h2]; rfl
    · rw [List.mem_singleton.mp h1]; rfl

theorem runActs_free {V : Type} (i : Nat) (nv ov : V) :
    ∀ (acts : List LAct) (st : RegSt V), actsFree acts = true →
      st.slots.all slotFree = true →
      ∃ st', runActs i nv ov acts st = .ok st' ∧ st'.slots.all slotFree = true := by
  intro acts
  induction acts with
  | nil => intro st _ hst; exact ⟨st, rfl, hst⟩
  | cons a rest ih =>
    intro st hfree hst
    have hfa : actFree a = true ∧ actsFree rest = true := by
      simpa [actsFree, Bool.and_eq_true] using hfree
    cases a with
    | record t => exact ih _ hfa.2 hst
    | clearSlot n => exact ih _ hfa.2 (all_slotFree_setSlot _ _ hst)
    | unsubSelf => exact ih _ hfa.2 (all_slotFree_setSlot _ _ hst)
    | addListener acts2 =>
      have h2 : actsFree acts2 = true := by simpa [actFree] using hfa.1
      refine ih _ hfa.2 ?_
      rw [List.all_append]
      simp [hst, slotFree, h2]
    | throwErr m => exact absurd hfa.1 (by simp [actFree])

theorem notifyLoop_free {V : Type} (nv ov : V) :
    ∀ (fuel i uc : Nat) (st : RegSt V), st.slots.all slotFree = true →
      ∃ st' uc', notifyLoop nv ov fuel i st uc = .ok (st', uc') ∧
        st'.slots.all slotFree = true := by
  intro fuel
  induction fuel with
  | zero => intro i uc st h; exact ⟨st, uc, rfl, h⟩
  | succ n ih =>
    intro i uc st h
    rw [notifyLoop]
    by_cases hi : i < st.slots.length
    · rw [if_pos hi]
      cases hslot : st.slots.getD i none with
      | none => exact ih (i + 1) (uc + 1) st h
      | some acts =>
        have hacts : actsFree acts = true := by
          rw [List.getD_eq_getElem?_getD] at hslot
          cases hq : st.slots[i]? with
          | none => rw [hq] at hslot; simp at hslot
          | some v =>
            rw [hq] at hslot
            simp at hslot
            subst hslot
            obtain ⟨hlt, hv⟩ := List.getElem?_eq_some_iff.mp hq
            rw [List.all_eq_true] at h
            have := h _ (hv ▸ List.getElem_mem hlt)
            simpa [slotFree] using this
        obtain ⟨st2, hrun, hst2⟩ := runActs_free i nv ov acts st hacts h
        simp only [hrun]
        exact ih (i + 1) uc st2 hst2
    · rw [if_neg hi]
      exact ⟨st, uc, rfl, h⟩

/-- Claim C10 (confirmed): a source cell has no terminal state.  `Datum` has
no destroyed flag; reading `val` is a total projection, and neither `set`
nor `onChange` contains a `throw` — formally, whenever every registered
listener (and, for `onChange` with `runImmediately`, the callback being
registered) is throw-free, both operations succeed; the only way an
exception leaves `set` or `onChange` is a listener callback raising one.
Only `Composed` nodes have the failing destroyed state (`composedVal` /
`composedOnChange` errors). -/
theorem datum_has_no_terminal_state {V : Type} (deepEq : V → V → Bool)
    (d : DatumSt V) (v : V) (cb : List LAct) (ri : Bool)
    (hd : d.reg.slots.all slotFree = true) (hcb : actsFree cb = true) :
    (∃ d', datumSet deepEq d v = .ok d') ∧
      (∃ r, datumOnChange d cb ri = .ok r) := by
  constructor
  · unfold datumSet maybeNotifyListeners
    by_cases hde : deepEq v d.val = true
    · simp [hde]
    · have hde' : deepEq v d.val = false := by simpa using hde
      obtain ⟨st', uc', hloop, _⟩ :=
        notifyLoop_free v d.val
          (d.reg.slots.length + slotsGrowth d.reg.slots + 1) 0 0 d.reg hd
      simp only [hde', Bool.false_eq_true, if_false, hloop]
      by_cases hcomp : (1000 < st'.slots.length ∧ st'.slots.length * 3 < uc' * 4)
      · simp only [if_pos hcomp]
        exact ⟨_, rfl⟩
      · simp only [if_neg hcomp]
        exact ⟨_, rfl⟩
  · unfold datumOnChange insertListener
    cases ri with
    | false => exact ⟨_, rfl⟩
    | true =>
      have hall : (d.reg.slots ++ [some cb]).all slotFree = true := by
        rw [List.all_append]
        simp [hd, slotFree, hcb]
      obtain ⟨st2, hrun, _⟩ :=
        runActs_free d.reg.slots.length d.val d.val cb
          { d.reg with slots := d.reg.slots ++ [some cb] } hcb hall
      simp only [hrun]
      exact ⟨_, rfl⟩

/-- Witness for `datum_has_no_terminal_state` on a concrete cell with one
registered listener and an immediately-run callback. -/
theorem datum_has_no_terminal_state_witness :
    ((⟨5, none, ⟨[some [LAct.record 3]], []⟩⟩ : DatumSt Nat).reg.slots.all
        slotFree = true ∧
      actsFree [LAct.record 8] = true) ∧
      ((∃ d', datumSet (fun a b : Nat => a == b)
          (⟨5, none, ⟨[some [LAct.record 3]], []⟩⟩ : DatumSt Nat) 6 = .ok d') ∧
        (∃ r, datumOnChange
          (⟨5, none, ⟨[some [LAct.record 3]], []⟩⟩ : DatumSt Nat)
          [LAct.record 8] true = .ok r)) :=
  ⟨⟨rfl, rfl⟩,
    datum_has_no_terminal_state (fun a b : Nat => a == b)
      (⟨5, none, ⟨[some [LAct.record 3]], []⟩⟩ : DatumSt Nat) 6
      [LAct.record 8] true rfl rfl⟩

/-! ## Claims about the derived node lifecycle (`Composed`) -/

/-- Claim C7 (confirmed): after a successful `stopListening`, both the `val`
getter and `onChange` on the derived node fail deterministically with the
destroyed-state errors. -/
theorem destroyed_composed_ops_fail {V : Type} (c c' : ComposedLC V)
    (cb : List LAct) (h : stopListening c = .ok c') :
    composedVal c' = .error "cannot read val from destroyed cursor" ∧
      composedOnChange c' cb = .error "Cannot listen to destroyed Composed datum" := by
  unfold stopListening at h
  cases hc : c.onDestroy with
  | none => rw [hc] at h; exact absurd h (by simp)
  | some us =>
    rw [hc] at h
    have : c' = { destroyed := true, onDestroy := none, listeners := none,
                  valU := none } := by
      cases h; rfl
    subst this
    exact ⟨rfl, rfl⟩

/-- Witness for `destroyed_composed_ops_fail` on a concrete node. -/
theorem destroyed_composed_ops_fail_witness :
    stopListening (⟨false, some [()], some [], some 5⟩ : ComposedLC Nat)
        = .ok ⟨true, none, none, none⟩ ∧
      (composedVal (⟨true, none, none, none⟩ : ComposedLC Nat)
          = .error "cannot read val from destroyed cursor" ∧
        composedOnChange (⟨true, none, none, none⟩ : ComposedLC Nat) [LAct.record 0]
          = .error "Cannot listen to destroyed Composed datum") :=
  ⟨rfl, destroyed_composed_ops_fail
    (⟨false, some [()], some [], some 5⟩ : ComposedLC Nat) _ [LAct.record 0] rfl⟩

/-- Claim C9 (confirmed): destroy is not idempotent — a second
`stopListening` finds `#onDestroy` cleared to `undefined` and the `for..of`
over it throws. -/
theorem second_stopListening_throws {V : Type} (c c' : ComposedLC V)
    (h : stopListening c = .ok c') :
    stopListening c' = .error "TypeError: undefined is not iterable" := by
  unfold stopListening at h ⊢
  cases hc : c.onDestroy with
  | none => rw [hc] at h; exact absurd h (by simp)
  | some us =>
    rw [hc] at h
    have : c' = { destroyed := true, onDestroy := none, listeners := none,
                  valU := none } := by
      cases h; rfl
    subst this
    rfl

/-- Witness for `second_stopListening_throws` on a concrete node. -/
theorem second_stopListening_throws_witness :
    stopListening (⟨false, some [(), ()], some [], some 7⟩ : ComposedLC Nat)
        = .ok ⟨true, none, none, none⟩ ∧
      stopListening (⟨true, none, none, none⟩ : ComposedLC Nat)
        = .error "TypeError: undefined is not iterable" :=
  ⟨rfl, second_stopListening_throws
    (⟨false, some [(), ()], some [], some 7⟩ : ComposedLC Nat) _ rfl⟩

/-! ## Claims about the derived node's update path and `setMany` batches -/

/-- Claim C4 (confirmed): when an upstream update reaches the recompute
step (the shallow-equality short-circuit does not fire) and the recomputed
output is deep-equal to the previous output, the derived node emits no
notification (`outLog` unchanged) while its internal value and cached
upstream snapshot are still updated (and the compute counter advanced). -/
theorem handleUpdate_silent_when_output_unchanged {V : Type}
    (deepEq shallowEq : V → V → Bool) (compute : List V → Option V → V)
    (sys : CompSys V) (i : Nat) (v : V)
    (hsh : shallowEq v (sys.lastIn.getD i v) = false)
    (hde : deepEq (compute (getAll sys) (some sys.compVal)) sys.compVal = true) :
    handleUpdate deepEq shallowEq compute sys i v
      = { sys with lastIn := getAll sys,
                   compVal := compute (getAll sys) (some sys.compVal),
                   computeCount := sys.computeCount + 1 } := by
  unfold handleUpdate
  rw [if_neg (show ¬ shallowEq v (sys.lastIn.getD i v) = true from
      fun hcon => Bool.false_ne_true (hsh ▸ hcon)),
    if_pos hde]

/-- Witness for `handleUpdate_silent_when_output_unchanged`: two cells
holding 2 and 3 with a stale snapshot `[1, 4]`, summed output 5; the
update 2 at index 0 recomputes 2 + 3 = 5, deep-equal to the prior 5. -/
theorem handleUpdate_silent_witness :
    ((fun a b : Nat => a == b) 2
        (((⟨[⟨2, none⟩, ⟨3, none⟩], 5, [1, 4], 0, []⟩ : CompSys Nat)).lastIn.getD 0 2)
        = false) ∧
      handleUpdate (fun a b : Nat => a == b) (fun a b : Nat => a == b)
          (fun l _ => l.foldl (· + ·) 0)
          (⟨[⟨2, none⟩, ⟨3, none⟩], 5, [1, 4], 0, []⟩ : CompSys Nat) 0 2
        = ⟨[⟨2, none⟩, ⟨3, none⟩], 5, [2, 3], 1, []⟩ := by
  constructor
  · rfl
  · have h := handleUpdate_silent_when_output_unchanged
      (fun a b : Nat => a == b) (fun a b : Nat => a == b)
      (fun l _ => l.foldl (· + ·) 0)
      (⟨[⟨2, none⟩, ⟨3, none⟩], 5, [1, 4], 0, []⟩ : CompSys Nat) 0 2 rfl rfl
    exact h

/-- Batch invariant over the flush phase of `setMany`, relative to the
post-stage state `s1`: cell values never change while flushing, and the
derived node has either not recomputed at all (all of its fields are
untouched) or has recomputed exactly once from the staged values, with at
most one notification in its log, fired only if the new output deep-differs
from the pre-batch output. -/
def FlushInv {V : Type} (deepEq : V → V → Bool)
    (compute : List V → Option V → V) (s1 s : CompSys V) : Prop :=
  s.cells.map Cell.val = s1.cells.map Cell.val ∧
  ((s.compVal = s1.compVal ∧ s.computeCount = s1.computeCount ∧
    s.outLog = s1.outLog ∧ s.lastIn = s1.lastIn) ∨
   (s.computeCount = s1.computeCount + 1 ∧
    s.lastIn = s1.cells.map Cell.val ∧
    s.compVal = compute (s1.cells.map Cell.val) (some s1.compVal) ∧
    (s.outLog = s1.outLog ∨
     (s.outLog = s1.outLog ++ [(s.compVal, s1.compVal)] ∧
      deepEq s.compVal s1.compVal = false))))

theorem flushCell_preserves_inv {V : Type} (deepEq shallowEq : V → V → Bool)
    (compute : List V → Option V → V)
    (hrefl : ∀ x, shallowEq x x = true)
    (s1 s : CompSys V) (i : Nat)
    (hinv : FlushInv deepEq compute s1 s) :
    FlushInv deepEq compute s1 (flushCell deepEq shallowEq compute s i) := by
  obtain ⟨hvals, hcase⟩ := hinv
  unfold flushCell
  split
  · exact ⟨hvals, hcase⟩
  · rename_i c hget
    split
    · exact ⟨hvals, hcase⟩
    · rename_i old hlv
      have hget' : s.cells[i]? = some c := by
        rw [← List.get?_eq_getElem?]
        exact hget
      have hvals1 : (s.cells.set i { c with lastVal := none }).map Cell.val
          = s1.cells.map Cell.val := by
        rw [List.map_set, set_of_getElem?_eq]
        · exact hvals
        · simp [List.getElem?_map, hget']
      by_cases hde : deepEq c.val old = true
      · rw [if_pos hde]
        exact ⟨hvals1, hcase⟩
      · rw [if_neg hde]
        unfold handleUpdate
        rcases hcase with ⟨hA1, hA2, hA3, hA4⟩ | hB
        · by_cases hsh : shallowEq c.val (s.lastIn.getD i c.val) = true
          · rw [if_pos hsh]
            exact ⟨hvals1, Or.inl ⟨hA1, hA2, hA3, hA4⟩⟩
          · rw [if_neg hsh]
            have hcv : compute
                (getAll { s with cells := s.cells.set i { c with lastVal := none } })
                (some s.compVal)
                = compute (s1.cells.map Cell.val) (some s1.compVal) := by
              unfold getAll
              rw [hvals1, hA1]
            by_cases hdeo : deepEq (compute
                (getAll { s with cells := s.cells.set i { c with lastVal := none } })
                (some s.compVal)) s.compVal = true
            · rw [if_pos hdeo]
              refine ⟨hvals1, Or.inr ⟨?_, ?_, ?_, Or.inl ?_⟩⟩
              · show s.computeCount + 1 = s1.computeCount + 1
                rw [hA2]
              · show getAll { s with cells := s.cells.set i { c with lastVal := none } }
                    = s1.cells.map Cell.val
                unfold getAll
                exact hvals1
              · exact hcv
              · exact hA3
            · rw [if_neg hdeo]
              refine ⟨hvals1, Or.inr ⟨?_, ?_, ?_, Or.inr ⟨?_, ?_⟩⟩⟩
              · show s.computeCount + 1 = s1.computeCount + 1
                rw [hA2]
              · show getAll { s with cells := s.cells.set i { c with lastVal := none } }
                    = s1.cells.map Cell.val
                unfold getAll
                exact hvals1
              · exact hcv
              · show s.outLog
                    ++ [(compute
                          (getAll { s with cells := s.cells.set i { c with lastVal := none } })
                          (some s.compVal), s.compVal)]
                  = s1.outLog ++ [(_, s1.compVal)]
                rw [hA3, hA1]
              · show deepEq (compute
                    (getAll { s with cells := s.cells.set i { c with lastVal := none } })
                    (some s.compVal)) s1.compVal = false
                rw [← hA1]
                exact Bool.not_eq_true _ ▸ (by simpa using hdeo)
        · obtain ⟨hB1, hB2, hB3, hB4⟩ := hB
          have hlt : i < s.cells.length := (List.getElem?_eq_some_iff.mp hget').1
          have hval_at : (s1.cells.map Cell.val).getD i c.val = c.val := by
            rw [← hvals, List.getD_eq_getElem?_getD]
            simp [List.getElem?_map, hget']
          have hsh : shallowEq c.val (s.lastIn.getD i c.val) = true := by
            rw [hB2, hval_at]
            exact hrefl c.val
          rw [if_pos hsh]
          exact ⟨hvals1, Or.inr ⟨hB1, hB2, hB3, hB4⟩⟩

theorem flush_foldl_preserves_inv {V : Type} (deepEq shallowEq : V → V → Bool)
    (compute : List V → Option V → V)
    (hrefl : ∀ x, shallowEq x x = true) (s1 : CompSys V) :
    ∀ (pairs : List (Nat × V)) (s : CompSys V),
      FlushInv deepEq compute s1 s →
      FlushInv deepEq compute s1
        (pairs.foldl (fun s p => flushCell deepEq shallowEq compute s p.1) s) := by
  intro pairs
  induction pairs with
  | nil => intro s h; exact h
  | cons p rest ih =>
    intro s h
    exact ih _ (flushCell_preserves_inv deepEq shallowEq compute hrefl s1 s p.1 h)

theorem setLaterCell_fields {V : Type} (s : CompSys V) (i : Nat) (v : V) :
    (setLaterCell s i v).compVal = s.compVal ∧
      (setLaterCell s i v).computeCount = s.computeCount ∧
      (setLaterCell s i v).outLog = s.outLog ∧
      (setLaterCell s i v).lastIn = s.lastIn := by
  unfold setLaterCell
  cases s.cells.get? i with
  | none => exact ⟨rfl, rfl, rfl, rfl⟩
  | some c => exact ⟨rfl, rfl, rfl, rfl⟩

theorem stage_foldl_fields {V : Type} :
    ∀ (pairs : List (Nat × V)) (sys : CompSys V),
      (pairs.foldl (fun s p => setLaterCell s p.1 p.2) sys).compVal = sys.compVal ∧
      (pairs.foldl (fun s p => setLaterCell s p.1 p.2) sys).computeCount
        = sys.computeCount ∧
      (pairs.foldl (fun s p => setLaterCell s p.1 p.2) sys).outLog = sys.outLog := by
  intro pairs
  induction pairs with
  | nil => intro sys; exact ⟨rfl, rfl, rfl⟩
  | cons p rest ih =>
    intro sys
    obtain ⟨h1, h2, h3⟩ := ih (setLaterCell sys p.1 p.2)
    obtain ⟨g1, g2, g3, _⟩ := setLaterCell_fields sys p.1 p.2
    exact ⟨h1.trans g1, h2.trans g2, h3.trans g3⟩

/-- Claim C1, amended (corrected): during one `setMany` batch, a derived
node subscribed to the batched cells recomputes at most once — not exactly
once, since a batch whose staged values are all deep-equal to the pre-batch
values notifies no cell listener and triggers no recompute at all — and
fires at most one notification, carrying exactly its final output and its
pre-batch output, only when those deep-differ.  The only assumption is
reflexivity of the shallow-equality predicate (true of `fast-equals`). -/
theorem setMany_recomputes_at_most_once {V : Type}
    (deepEq shallowEq : V → V → Bool) (compute : List V → Option V → V)
    (hrefl : ∀ x, shallowEq x x = true)
    (sys : CompSys V) (pairs : List (Nat × V)) :
    (csSetMany deepEq shallowEq compute sys pairs).computeCount
        ≤ sys.computeCount + 1 ∧
      ((csSetMany deepEq shallowEq compute sys pairs).outLog = sys.outLog ∨
        ((csSetMany deepEq shallowEq compute sys pairs).outLog
            = sys.outLog
              ++ [((csSetMany deepEq shallowEq compute sys pairs).compVal,
                   sys.compVal)] ∧
          deepEq (csSetMany deepEq shallowEq compute sys pairs).compVal
              sys.compVal = false)) := by
  unfold csSetMany
  obtain ⟨hs1, hs2, hs3⟩ := stage_foldl_fields pairs sys
  have hbase : FlushInv deepEq compute
      (pairs.foldl (fun s p => setLaterCell s p.1 p.2) sys)
      (pairs.foldl (fun s p => setLaterCell s p.1 p.2) sys) :=
    ⟨rfl, Or.inl ⟨rfl, rfl, rfl, rfl⟩⟩
  obtain ⟨_, hcase⟩ := flush_foldl_preserves_inv deepEq shallowEq compute hrefl
    (pairs.foldl (fun s p => setLaterCell s p.1 p.2) sys) pairs
    (pairs.foldl (fun s p => setLaterCell s p.1 p.2) sys) hbase
  rcases hcase with ⟨h1, h2, h3, _⟩ | ⟨h1, _, _, h4⟩
  · constructor
    · rw [h2, hs2]
      omega
    · left
      rw [h3, hs3]
  · constructor
    · rw [h1, hs2]
    · rcases h4 with h4 | ⟨h4, h5⟩
      · left
        rw [h4, hs3]
      · right
        constructor
        · rw [h4, hs3, hs1]
        · rw [hs1] at h5
          exact h5

/-- Witness for `setMany_recomputes_at_most_once`: one cell holding 1 and a
second holding 2, summed; the batch stages 5 and 7 and commits. -/
theorem setMany_recomputes_at_most_once_witness :
    (∀ x : Nat, (x == x) = true) ∧
      ((csSetMany (fun a b : Nat => a == b) (fun a b : Nat => a == b)
            (fun l _ => l.foldl (· + ·) 0)
            (⟨[⟨1, none⟩, ⟨2, none⟩], 3, [1, 2], 0, []⟩ : CompSys Nat)
            [(0, 5), (1, 7)]).computeCount
          ≤ (⟨[⟨1, none⟩, ⟨2, none⟩], 3, [1, 2], 0, []⟩ : CompSys Nat).computeCount
              + 1 ∧
        ((csSetMany (fun a b : Nat => a == b) (fun a b : Nat => a == b)
              (fun l _ => l.foldl (· + ·) 0)
              (⟨[⟨1, none⟩, ⟨2, none⟩], 3, [1, 2], 0, []⟩ : CompSys Nat)
              [(0, 5), (1, 7)]).outLog
            = (⟨[⟨1, none⟩, ⟨2, none⟩], 3, [1, 2], 0, []⟩ : CompSys Nat).outLog ∨
          ((csSetMany (fun a b : Nat => a == b) (fun a b : Nat => a == b)
                (fun l _ => l.foldl (· + ·) 0)
                (⟨[⟨1, none⟩, ⟨2, none⟩], 3, [1, 2], 0, []⟩ : CompSys Nat)
                [(0, 5), (1, 7)]).outLog
              = (⟨[⟨1, none⟩, ⟨2, none⟩], 3, [1, 2], 0, []⟩ : CompSys Nat).outLog
                ++ [((csSetMany (fun a b : Nat => a == b) (fun a b : Nat => a == b)
                      (fun l _ => l.foldl (· + ·) 0)
                      (⟨[⟨1, none⟩, ⟨2, none⟩], 3, [1, 2], 0, []⟩ : CompSys Nat)
                      [(0, 5), (1, 7)]).compVal,
                    (⟨[⟨1, none⟩, ⟨2, none⟩], 3, [1, 2], 0, []⟩ : CompSys Nat).compVal)] ∧
            ((csSetMany (fun a b : Nat => a == b) (fun a b : Nat => a == b)
                (fun l _ => l.foldl (· + ·) 0)
                (⟨[⟨1, none⟩, ⟨2, none⟩], 3, [1, 2], 0, []⟩ : CompSys Nat)
                [(0, 5), (1, 7)]).compVal
              == (⟨[⟨1, none⟩, ⟨2, none⟩], 3, [1, 2], 0, []⟩ : CompSys Nat).compVal)
              = false))) :=
  ⟨fun x => beq_self_eq_true x,
    setMany_recomputes_at_most_once (fun a b : Nat => a == b)
      (fun a b : Nat => a == b) (fun l _ => l.foldl (· + ·) 0)
      (fun x => beq_self_eq_true x)
      (⟨[⟨1, none⟩, ⟨2, none⟩], 3, [1, 2], 0, []⟩ : CompSys Nat)
      [(0, 5), (1, 7)]⟩

/-- Counterexample to claim C1 as stated ("recomputes exactly once"): a
batch that stages the cell's current value commits without any cell
notifying, so the derived node never recomputes — its compute count stays
0 instead of becoming 1. -/
theorem setMany_zero_recomputes :
    ¬ ((csSetMany (fun a b : Nat => a == b) (fun a b : Nat => a == b)
          (fun l _ => l.foldl (· + ·) 0)
          (⟨[⟨5, none⟩], 5, [5], 0, []⟩ : CompSys Nat) [(0, 5)]).computeCount
        = 1) := by
  decide

end Datums
